import Mathlib

/-!
Verification of the scriptworker artifact pipeline (scriptworker/artifacts.py)
against its natural-language specification.

The Python functions are shallowly embedded as Lean functions.  File-system
state, the generic MIME guesser, HTTP responses and per-transfer outcomes are
passed explicitly as parameters.  POSIX path manipulation (`os.path.join`,
`os.path.normpath`, `os.path.abspath`) is modelled character-for-character
after CPython's `posixpath` module.
-/

set_option autoImplicit false

namespace Scriptworker

/-! ## POSIX path model (CPython `posixpath`) -/

/-- Split a character list on the separator `'/'`, mirroring `str.split('/')`:
the result is always non-empty, and empty components mark leading, trailing or
doubled separators. -/
def splitSlash : List Char → List (List Char)
  | [] => [[]]
  | c :: rest =>
    if c = '/' then [] :: splitSlash rest
    else
      match splitSlash rest with
      | [] => [[c]]
      | h :: t => (c :: h) :: t

/-- Join a list of components with `'/'`, mirroring `'/'.join(comps)`. -/
def joinSlash : List (List Char) → List Char
  | [] => []
  | [c] => c
  | c :: c2 :: rest => c ++ '/' :: joinSlash (c2 :: rest)

/-- Two-argument `posixpath.join`: an absolute second argument discards the
first; otherwise a separator is inserted unless one is already present. -/
def pyJoin2 (a b : List Char) : List Char :=
  if b.head? = some '/' then b
  else if a = [] ∨ a.getLast? = some '/' then a ++ b
  else a ++ '/' :: b

/-- The component-normalisation loop of `posixpath.normpath`: drops empty and
`'.'` components, and resolves `'..'` against the accumulator (which holds the
already-normalised components in reverse). -/
def normLoop (isAbs : Bool) (acc : List (List Char)) : List (List Char) → List (List Char)
  | [] => acc
  | c :: rest =>
    if c = [] ∨ c = ['.'] then normLoop isAbs acc rest
    else if c = ['.', '.'] then
      match acc with
      | [] => if isAbs then normLoop isAbs [] rest else normLoop isAbs [['.', '.']] rest
      | h :: t =>
        if h = ['.', '.'] then normLoop isAbs (c :: acc) rest else normLoop isAbs t rest
    else normLoop isAbs (c :: acc) rest

/-- Model of `posixpath.normpath` on character lists, including the special handling of
exactly two leading slashes. -/
def normpathChars (p : List Char) : List Char :=
  if p = [] then ['.']
  else
    let slashes : Nat :=
      if p.head? = some '/' then
        if p.take 2 = ['/', '/'] ∧ p.take 3 ≠ ['/', '/', '/'] then 2 else 1
      else 0
    let comps := normLoop (slashes ≠ 0) [] (splitSlash p)
    let body := List.replicate slashes '/' ++ joinSlash comps.reverse
    if body = [] then ['.'] else body

/-- Model of `posixpath.abspath` on character lists, with the current working directory
passed explicitly. -/
def abspathChars (cwd p : List Char) : List Char :=
  if p.head? = some '/' then normpathChars p
  else normpathChars (pyJoin2 cwd p)

/-- Two-argument `os.path.join` on strings. -/
def pyJoin (a b : String) : String :=
  (pyJoin2 a.toList b.toList).asString

/-- Embedding of `str.endswith` via character-list suffix testing. -/
def pyEndsWith (s suffix : String) : Bool :=
  suffix.toList.isSuffixOf s.toList

/-- Holds when `root ++ "/"` is a textual prefix of `p`: the formalisation of a path `p`
falling under the directory `root`. -/
def isUnder (root p : String) : Bool :=
  (root ++ "/").toList.isPrefixOf p.toList

/-! ## Upstream artifact locations (artifacts.py lines 317-431) -/

/-- Embedding of `get_single_upstream_artifact_full_path`:
`os.path.abspath(os.path.join(task_context.work_dir, 'cot', task_id, path))`.
The process working directory `cwd` (consulted by `abspath` when the joined
path is relative) is passed explicitly. -/
def get_single_upstream_artifact_full_path (cwd work_dir task_id path : String) : String :=
  (abspathChars cwd.toList
    (pyJoin2 (pyJoin2 (pyJoin2 work_dir.toList "cot".toList) task_id.toList) path.toList)).asString

/-- The exception `ScriptWorkerTaskException` carrying its message; it is not in the retry
primitive's transient set, hence non-retryable. -/
inductive ScriptWorkerError where
  | taskException : String → ScriptWorkerError
deriving DecidableEq

/-- Embedding of `get_and_check_single_upstream_artifact_full_path`: resolve the path and
raise `ScriptWorkerTaskException` when no file exists there.  The file system
is abstracted by the predicate `path_exists` (`os.path.exists`). -/
def get_and_check_single_upstream_artifact_full_path (path_exists : String → Bool)
    (cwd work_dir task_id path : String) : Except ScriptWorkerError String :=
  let abs_path := get_single_upstream_artifact_full_path cwd work_dir task_id path
  if path_exists abs_path then Except.ok abs_path
  else Except.error (ScriptWorkerError.taskException
    ("upstream artifact with path: " ++ abs_path ++ ", does not exist"))

/-- One entry of the task payload's `upstreamArtifacts` list: the producing
task id, the declared relative paths, and the `optional` flag
(`artifact_definition.get('optional', False) is True`). -/
structure ArtifactDefinition where
  taskId : String
  paths : List String
  optional : Bool
deriving DecidableEq

/-- Modelled from the spec: `add_enumerable_item_to_dict` (scriptworker.utils,
not under src/): records items under a key of a dict of lists, creating the
key on first use and otherwise extending the existing list (a single item is
appended; a list of items extends).  Embedded on association lists, updating
the entry in place. -/
def add_enumerable_item_to_dict (d : List (String × List String)) (key : String)
    (items : List String) : List (String × List String) :=
  if d.any (fun kv => kv.1 == key) then
    d.map (fun kv => if kv.1 == key then (kv.1, kv.2 ++ items) else kv)
  else
    d ++ [(key, items)]

/-- Embedding of `get_optional_artifacts_per_task_id`: collect the paths of every artifact
definition whose `optional` flag is set, grouped by task id. -/
def get_optional_artifacts_per_task_id (upstream_artifacts : List ArtifactDefinition) :
    List (String × List String) :=
  upstream_artifacts.foldl
    (fun d a => if a.optional then add_enumerable_item_to_dict d a.taskId a.paths else d) []

/-- The flattened `(task_id, relative_path)` pairs in declaration order, as
iterated by `get_upstream_artifacts_full_paths_per_task_id`. -/
def taskIdRelPathPairs (defs : List ArtifactDefinition) : List (String × String) :=
  (defs.map (fun a => a.paths.map (fun p => (a.taskId, p)))).flatten

/-- The iteration of `get_upstream_artifacts_full_paths_per_task_id` over the
declared pairs, threading the two result dicts; a missing non-optional
artifact short-circuits with the `ScriptWorkerTaskException`. -/
def upstreamLoop (path_exists : String → Bool) (cwd work_dir : String)
    (optional_map : List (String × List String))
    (full failed : List (String × List String)) :
    List (String × String) →
    Except ScriptWorkerError (List (String × List String) × List (String × List String))
  | [] => Except.ok (full, failed)
  | (task_id, path) :: rest =>
    match get_and_check_single_upstream_artifact_full_path path_exists cwd work_dir task_id path with
    | Except.ok path_to_add =>
      upstreamLoop path_exists cwd work_dir optional_map
        (add_enumerable_item_to_dict full task_id [path_to_add]) failed rest
    | Except.error e =>
      if path ∈ (List.lookup task_id optional_map).getD [] then
        upstreamLoop path_exists cwd work_dir optional_map
          full (add_enumerable_item_to_dict failed task_id [path]) rest
      else Except.error e

/-- Embedding of `get_upstream_artifacts_full_paths_per_task_id`: returns the dict of
existing artifacts' full paths and the dict of failed-but-optional relative
paths, both keyed by task id, or raises on a missing required artifact. -/
def get_upstream_artifacts_full_paths_per_task_id (path_exists : String → Bool)
    (cwd work_dir : String) (upstream_artifacts : List ArtifactDefinition) :
    Except ScriptWorkerError (List (String × List String) × List (String × List String)) :=
  upstreamLoop path_exists cwd work_dir (get_optional_artifacts_per_task_id upstream_artifacts)
    [] [] (taskIdRelPathPairs upstream_artifacts)

/-! ## Content-type classification and compression (artifacts.py lines 32-130) -/

/-- The whitelist `_GZIP_SUPPORTED_CONTENT_TYPE` (artifacts.py line 32). -/
def _GZIP_SUPPORTED_CONTENT_TYPE : List String :=
  ["text/plain", "application/json", "text/html", "application/xml"]

/-- The table `_EXTENSION_TO_MIME_TYPE` (artifacts.py lines 35-46), in insertion order. -/
def _EXTENSION_TO_MIME_TYPE : List (String × String × Option String) :=
  [(".tar.gz", "application/x-tar", none),
   (".tgz", "application/x-tar", none),
   (".txt", "text/plain", none),
   (".dmg", "application/x-apple-diskimage", none),
   (".log", "text/plain", none),
   (".asc", "text/plain", none),
   (".diff", "text/plain", none),
   (".xml", "application/xml", none)]

/-- Embedding of `guess_content_type_and_encoding`: first matching entry of the extension
table wins; otherwise the generic `mimetypes.guess_type` (passed explicitly as
`guess_type`, since it depends on the system MIME database) is consulted, the
content type defaulting to `"application/binary"`. -/
def guess_content_type_and_encoding (guess_type : String → Option String × Option String)
    (path : String) : String × Option String :=
  match _EXTENSION_TO_MIME_TYPE.find? (fun e => pyEndsWith path e.1) with
  | some e => e.2
  | none =>
    let g := guess_type path
    (g.1.getD "application/binary", g.2)

/-- The bytes of a file on disk; gzip compression is modelled as the
constructor `gzipped`, so compressed content is never equal to the original. -/
inductive FileContent where
  | raw : List Nat → FileContent
  | gzipped : FileContent → FileContent
deriving DecidableEq

/-- Embedding of `compress_artifact_if_supported`: gzip the file in place exactly when no
encoding was guessed and the content type is in the gzip whitelist; returns
the content type and final encoding together with the resulting file bytes. -/
def compress_artifact_if_supported (guess_type : String → Option String × Option String)
    (artifact_path : String) (content : FileContent) :
    (String × Option String) × FileContent :=
  let g := guess_content_type_and_encoding guess_type artifact_path
  if g.2 = none ∧ g.1 ∈ _GZIP_SUPPORTED_CONTENT_TYPE then
    ((g.1, some "gzip"), FileContent.gzipped content)
  else
    (g, content)

/-! ## Upload path (artifacts.py lines 49-204) -/

/-- The exception kinds of the upload path: `ScriptWorkerRetryException` with
its message, `aiohttp.ClientError`, and any other (non-transient) exception. -/
inductive UploadError where
  | retryException : String → UploadError
  | clientError : UploadError
  | fatal : UploadError
deriving DecidableEq

/-- Embedding of `create_artifact`'s handling of the HTTP PUT response: a status other than
200 or 204 raises `ScriptWorkerRetryException("Bad status <n>")`. -/
def create_artifact (resp_status : Nat) : Except UploadError Unit :=
  if resp_status = 200 ∨ resp_status = 204 then Except.ok ()
  else Except.error (UploadError.retryException ("Bad status " ++ toString resp_status))

/-- The transient exception set of `retry_create_artifact`:
`(ScriptWorkerRetryException, aiohttp.ClientError)`. -/
def is_retryable_upload : UploadError → Bool
  | UploadError.retryException _ => true
  | UploadError.clientError => true
  | UploadError.fatal => false

/-- Modelled from the spec: `retry_async` (scriptworker.utils, not under
src/): invoke the operation; on an exception in the transient set, retry up to
the attempt budget, re-raising the last transient exception on exhaustion; a
non-transient exception propagates immediately.  The `i`-th invocation's
outcome is `op i`; the result is returned together with the number of
invocations performed. -/
def retry_async {E A : Type} (is_retryable : E → Bool) (op : Nat → Except E A)
    (attempt : Nat) : Nat → Except E A × Nat
  | 0 => (op attempt, attempt + 1)
  | 1 => (op attempt, attempt + 1)
  | budget + 2 =>
    match op attempt with
    | Except.ok a => (Except.ok a, attempt + 1)
    | Except.error e =>
      if is_retryable e then retry_async is_retryable op (attempt + 1) (budget + 1)
      else (Except.error e, attempt + 1)

/-- Embedding of `retry_create_artifact`: retry `create_artifact` on
`ScriptWorkerRetryException` and `aiohttp.ClientError` up to the attempt
budget; the `i`-th attempt observes the PUT status `responses i`. -/
def retry_create_artifact (attempts : Nat) (responses : Nat → Nat) :
    Except UploadError Unit × Nat :=
  retry_async is_retryable_upload (fun i => create_artifact (responses i)) 0 attempts

/-- The exception carried by a failed future, if any. -/
def errorOf {E A : Type} : Except E A → Option E
  | Except.error e => some e
  | Except.ok _ => none

/-- The result carried by a successful future, if any. -/
def okOf {E A : Type} : Except E A → Option A
  | Except.ok a => some a
  | Except.error _ => none

/-- Whether a future settled successfully. -/
def exceptIsOk {E A : Type} : Except E A → Bool
  | Except.ok _ => true
  | Except.error _ => false

/-- Modelled from the spec: `raise_future_exceptions` (scriptworker.utils, not
under src/): await every future of the batch, then re-raise the first
exception observed, if any; results of successful siblings are kept. -/
def raise_future_exceptions {E A : Type} (results : List (Except E A)) :
    Except E (List A) :=
  match results.findSome? errorOf with
  | some e => Except.error e
  | none => Except.ok (results.filterMap okOf)

/-- Embedding of `upload_artifacts`: one upload operation per requested file, awaited as a
batch via `raise_future_exceptions`.  The outcome of each file's
`retry_create_artifact` (after its retries) is abstracted as `upload_result`;
the second component records which files were successfully uploaded (their
uploads are never rolled back). -/
def upload_artifacts (upload_result : String → Except UploadError Unit)
    (files : List String) : Except UploadError (List Unit) × List String :=
  let tasks := files.map upload_result
  (raise_future_exceptions tasks,
   files.filter (fun f => exceptIsOk (upload_result f)))

/-! ## Download path (artifacts.py lines 262-314) -/

/-- The portion of an artifact URL that drives validation: the task id it
references and the relative path it resolves to. -/
structure ArtifactUrl where
  taskId : String
  relPath : String
deriving DecidableEq

/-- The failures of the download path: a URL rejected by validation (a
security rejection, never retried) and a download failure surviving its
retries (`BaseDownloadError`). -/
inductive DownloadArtifactsError where
  | invalidUrl : ArtifactUrl → DownloadArtifactsError
  | downloadFailed : ArtifactUrl → DownloadArtifactsError
deriving DecidableEq

/-- Modelled from the spec: `validate_artifact_url` (scriptworker.client, not
under src/): check a URL against the config rules and the allow-list of task
ids, returning the relative path it resolves to, and raising a validation
error when the URL references a task id outside the allow-list. -/
def validate_artifact_url (valid_artifact_task_ids : List String) (u : ArtifactUrl) :
    Except DownloadArtifactsError String :=
  if u.taskId ∈ valid_artifact_task_ids then Except.ok u.relPath
  else Except.error (DownloadArtifactsError.invalidUrl u)

/-- The validation loop of `download_artifacts`: validate every URL in order,
collecting the absolute local paths `os.path.join(parent_dir, rel_path)`; the
first validation failure propagates.  No download coroutine runs before this
loop completes (the loop contains no suspension point). -/
def validateUrls (valid_ids : List String) (parent_dir : String) :
    List ArtifactUrl → Except DownloadArtifactsError (List String)
  | [] => Except.ok []
  | u :: rest =>
    match validate_artifact_url valid_ids u with
    | Except.error e => Except.error e
    | Except.ok rel_path =>
      match validateUrls valid_ids parent_dir rest with
      | Except.error e => Except.error e
      | Except.ok files => Except.ok (pyJoin parent_dir rel_path :: files)

/-- Embedding of `download_artifacts`: validate every URL against the allow-list (defaulting
to the task's dependencies plus the decision task id), then download all of
them concurrently, each retried internally; the first failure is raised by
`raise_future_exceptions` and the local paths are returned in input order on
success.  `download_result u` abstracts the outcome of `retry_async` around
`download_func` for `u`; the second component lists the URLs for which a
download was performed (none when validation raised, since the download
coroutines never start before the batch is awaited). -/
def download_artifacts (download_result : ArtifactUrl → Except DownloadArtifactsError Unit)
    (work_dir : String) (dependencies : List String) (decision_task_id : String)
    (valid_artifact_task_ids : Option (List String)) (parent_dir : Option String)
    (file_urls : List ArtifactUrl) :
    Except DownloadArtifactsError (List String) × List ArtifactUrl :=
  let pdir := parent_dir.getD work_dir
  let valid_ids := valid_artifact_task_ids.getD (dependencies ++ [decision_task_id])
  match validateUrls valid_ids pdir file_urls with
  | Except.error e => (Except.error e, [])
  | Except.ok files =>
    match (file_urls.map download_result).findSome? errorOf with
    | some e => (Except.error e, file_urls)
    | none => (Except.ok files, file_urls)

/-! ## Task lifecycle controller (modelled from the spec; worker.py is not
under src/, only its tests are) -/

/-- The terminal status codes of one task cycle (spec section 3, `Status`). -/
inductive Status where
  | success
  | failure
  | internalError
  | intermittentTask
  | workerShutdown
deriving DecidableEq

/-- The tagged outcome of the execute phase (spec section 9: a variant type
with cases finished, timed out, shutdown-stopped). -/
inductive RunTaskOutcome where
  | finished : Nat → RunTaskOutcome
  | timedOut : RunTaskOutcome
  | shutdownStopped : RunTaskOutcome
deriving DecidableEq

/-- The outcome of the chain-of-trust verification phase, including its
cancellation by a worker shutdown while the verification is in flight. -/
inductive CotVerifyOutcome where
  | verified
  | verificationFailed
  | cancelledByShutdown
deriving DecidableEq

/-- The externally observable queue interactions of one cycle's tail. -/
inductive WorkerEvent where
  | uploadCall : List String → WorkerEvent
  | completeCall : Status → WorkerEvent
deriving DecidableEq

/-- The chain-of-trust log artifacts uploaded when a cycle is interrupted. -/
def cot_log_artifacts : List String :=
  ["public/logs/chain_of_trust.log", "public/logs/live_backing.log"]

/-- Status of a finished subprocess: exit code 0 is success. -/
def exit_code_status (code : Nat) : Status :=
  if code = 0 then Status.success else Status.failure

/-- Modelled from the spec: `do_run_task` (scriptworker.worker, not under
src/): the tail of one claimed cycle.  Execute the task (a shutdown stop is a
dedicated condition forcing status worker-shutdown); then, unless already
interrupted, run chain-of-trust verification when enabled (its failure is
fatal to the task; its cancellation by shutdown also forces worker-shutdown);
then perform exactly one upload call — covering the chain-of-trust log
artifacts when interrupted — and exactly one completion report.  An interrupt
forces status worker-shutdown regardless of what else failed. -/
def do_run_task (verify_cot : Bool) (task_max_timeout_status : Status)
    (run : RunTaskOutcome) (verify : CotVerifyOutcome)
    (artifact_files : List String) (upload_ok : Bool) : Status × List WorkerEvent :=
  let runStep : Status × Bool :=
    match run with
    | RunTaskOutcome.finished code => (exit_code_status code, false)
    | RunTaskOutcome.timedOut => (task_max_timeout_status, false)
    | RunTaskOutcome.shutdownStopped => (Status.workerShutdown, true)
  let verifyStep : Status × Bool :=
    if runStep.2 then runStep
    else if verify_cot then
      match verify with
      | CotVerifyOutcome.verified => runStep
      | CotVerifyOutcome.verificationFailed => (Status.internalError, false)
      | CotVerifyOutcome.cancelledByShutdown => (Status.workerShutdown, true)
    else runStep
  let interrupted := verifyStep.2
  let upload_files := if interrupted then cot_log_artifacts else artifact_files
  let final_status :=
    if interrupted then Status.workerShutdown
    else if upload_ok then verifyStep.1 else Status.internalError
  (final_status, [WorkerEvent.uploadCall upload_files, WorkerEvent.completeCall final_status])

/-! ## Specification-side descriptions used to state the claims -/

/-- A clean path component: non-empty, free of the separator, and not one of
the special entries `.` and `..`. -/
def cleanComp (c : List Char) : Prop :=
  c ≠ [] ∧ '/' ∉ c ∧ c ≠ ['.'] ∧ c ≠ ['.', '.']

instance (c : List Char) : Decidable (cleanComp c) := by
  unfold cleanComp; infer_instance

/-- The concatenated declared paths of the optional artifact definitions
naming task id `t`, in declaration order (the path list C10 predicts for
`t` in the result of `get_optional_artifacts_per_task_id`). -/
def optPaths (t : String) (defs : List ArtifactDefinition) : List String :=
  (defs.filter (fun a => a.optional && a.taskId == t)).flatMap (fun a => a.paths)

/-- The keys of an association-list dict are pairwise distinct. -/
def keysNodup (d : List (String × List String)) : Prop :=
  (d.map Prod.fst).Nodup

/-- The full paths of the declared `(task id, path)` pairs for task `t` whose
resolved file exists, in declaration order. -/
def existingFullPaths (path_exists : String → Bool) (cwd work_dir t : String)
    (pairs : List (String × String)) : List String :=
  (pairs.filter (fun tp =>
      tp.1 == t && path_exists (get_single_upstream_artifact_full_path cwd work_dir tp.1 tp.2))).map
    (fun tp => get_single_upstream_artifact_full_path cwd work_dir tp.1 tp.2)

/-- The relative paths of the declared `(task id, path)` pairs for task `t`
whose resolved file is missing, in declaration order. -/
def failedRelPaths (path_exists : String → Bool) (cwd work_dir t : String)
    (pairs : List (String × String)) : List String :=
  (pairs.filter (fun tp =>
      tp.1 == t && !path_exists (get_single_upstream_artifact_full_path cwd work_dir tp.1 tp.2))).map
    (fun tp => tp.2)

/-- Whether an event is a completion report. -/
def isCompleteEvent : WorkerEvent → Bool
  | WorkerEvent.completeCall _ => true
  | WorkerEvent.uploadCall _ => false

/-- Whether an event is an artifact upload call. -/
def isUploadEvent : WorkerEvent → Bool
  | WorkerEvent.uploadCall _ => true
  | WorkerEvent.completeCall _ => false

/-! ## Lemmas about the POSIX path model -/

theorem splitSlash_ne_nil (a : List Char) : splitSlash a ≠ [] := by
  cases a with
  | nil => simp [splitSlash]
  | cons c rest =>
    simp only [splitSlash]
    split
    · simp
    · split <;> simp

theorem splitSlash_no_slash (c : List Char) (h : '/' ∉ c) : splitSlash c = [c] := by
  induction c with
  | nil => rfl
  | cons ch rest ih =>
    have hch : ¬ ch = '/' := fun he => h (he ▸ List.mem_cons_self _ _)
    have hr : '/' ∉ rest := fun hm => h (List.mem_cons_of_mem _ hm)
    simp only [splitSlash, if_neg hch, ih hr]

theorem splitSlash_append (a b : List Char) :
    splitSlash (a ++ '/' :: b) = splitSlash a ++ splitSlash b := by
  induction a with
  | nil => simp [splitSlash]
  | cons c rest ih =>
    by_cases h : c = '/'
    · subst h
      show splitSlash ('/' :: (rest ++ '/' :: b)) = _
      rw [splitSlash, if_pos rfl, ih, splitSlash, if_pos rfl]
      rfl
    · show splitSlash (c :: (rest ++ '/' :: b)) = _
      rw [splitSlash, if_neg h, ih, splitSlash, if_neg h]
      cases hs : splitSlash rest with
      | nil => exact absurd hs (splitSlash_ne_nil rest)
      | cons h' t => simp [hs]

theorem joinSlash_ne_nil (comps : List (List Char)) (h : comps ≠ [])
    (hc : ∀ c ∈ comps, c ≠ []) : joinSlash comps ≠ [] := by
  match comps with
  | [c] => exact hc c (by simp)
  | c :: c2 :: rest => simp [joinSlash]

theorem joinSlash_getLast?_ne_slash (comps : List (List Char)) (h : comps ≠ [])
    (hc : ∀ c ∈ comps, c ≠ [] ∧ '/' ∉ c) : (joinSlash comps).getLast? ≠ some '/' := by
  induction comps with
  | nil => exact absurd rfl h
  | cons c rest ih =>
    cases rest with
    | nil =>
      obtain ⟨hne, hns⟩ := hc c (by simp)
      intro hlast
      exact hns (List.mem_of_getLast?_eq_some hlast)
    | cons c2 rest2 =>
      have ih' := ih (by simp) (fun x hx => hc x (List.mem_cons_of_mem _ hx))
      have hnn : joinSlash (c2 :: rest2) ≠ [] :=
        joinSlash_ne_nil _ (by simp) (fun x hx => (hc x (List.mem_cons_of_mem _ hx)).1)
      show (c ++ '/' :: joinSlash (c2 :: rest2)).getLast? ≠ some '/'
      rw [List.getLast?_append]
      have : ('/' :: joinSlash (c2 :: rest2)).getLast? = (joinSlash (c2 :: rest2)).getLast? := by
        show (['/'] ++ joinSlash (c2 :: rest2)).getLast? = _
        rw [List.getLast?_append]
        obtain ⟨y, hy⟩ := Option.isSome_iff_exists.mp (List.getLast?_isSome.mpr hnn)
        simp [hy]
      rw [this]
      obtain ⟨y, hy⟩ := Option.isSome_iff_exists.mp (List.getLast?_isSome.mpr hnn)
      rw [hy]
      simp only [Option.or_some]
      intro hcon
      exact ih' (by rw [hy]; exact hcon)

theorem joinSlash_head?_ne_slash (comps : List (List Char)) (h : comps ≠ [])
    (hc : ∀ c ∈ comps, c ≠ [] ∧ '/' ∉ c) : (joinSlash comps).head? ≠ some '/' := by
  cases comps with
  | nil => exact absurd rfl h
  | cons c rest =>
    obtain ⟨hne, hns⟩ := hc c (by simp)
    cases rest with
    | nil =>
      intro hcon
      obtain ⟨ys, hys⟩ := List.head?_eq_some_iff.mp hcon
      exact hns (by rw [show joinSlash [c] = c from rfl] at hys; rw [hys]; simp)
    | cons c2 rest2 =>
      show (c ++ '/' :: joinSlash (c2 :: rest2)).head? ≠ some '/'
      rw [List.head?_append]
      obtain ⟨ch, chrest, rfl⟩ : ∃ ch chrest, c = ch :: chrest := by
        cases c with
        | nil => exact absurd rfl hne
        | cons x xs => exact ⟨x, xs, rfl⟩
      simp only [List.head?_cons, Option.or_some]
      intro hcon
      exact hns (by simp at hcon; simp [hcon])

theorem normLoop_clean (isAbs : Bool) (l : List (List Char)) :
    ∀ acc, (∀ c ∈ l, cleanComp c) → normLoop isAbs acc l = l.reverse ++ acc := by
  induction l with
  | nil => intro acc _; rfl
  | cons c rest ih =>
    intro acc hcl
    obtain ⟨hne, hns, hd, hdd⟩ := hcl c (by simp)
    show normLoop isAbs acc (c :: rest) = _
    rw [normLoop.eq_def]
    simp only
    rw [if_neg (by push_neg; exact ⟨hne, hd⟩), if_neg hdd,
      ih _ (fun x hx => hcl x (List.mem_cons_of_mem _ hx))]
    simp

theorem splitSlash_joinSlash (comps : List (List Char)) (h : comps ≠ [])
    (hc : ∀ c ∈ comps, '/' ∉ c) : splitSlash (joinSlash comps) = comps := by
  induction comps with
  | nil => exact absurd rfl h
  | cons c rest ih =>
    cases rest with
    | nil => exact splitSlash_no_slash c (hc c (by simp))
    | cons c2 rest2 =>
      show splitSlash (c ++ '/' :: joinSlash (c2 :: rest2)) = _
      rw [splitSlash_append, splitSlash_no_slash c (hc c (by simp)),
        ih (by simp) (fun x hx => hc x (List.mem_cons_of_mem _ hx))]
      rfl

theorem joinSlash_append (l1 l2 : List (List Char)) (h1 : l1 ≠ []) (h2 : l2 ≠ []) :
    joinSlash (l1 ++ l2) = joinSlash l1 ++ '/' :: joinSlash l2 := by
  induction l1 with
  | nil => exact absurd rfl h1
  | cons c rest ih =>
    cases rest with
    | nil =>
      cases l2 with
      | nil => exact absurd rfl h2
      | cons d rest2 => rfl
    | cons c2 rest2 =>
      have step := ih (by simp)
      show joinSlash (c :: ((c2 :: rest2) ++ l2)) = _
      have hcons : ∃ y ys, (c2 :: rest2) ++ l2 = y :: ys := ⟨c2, rest2 ++ l2, rfl⟩
      obtain ⟨y, ys, hy⟩ := hcons
      rw [hy]
      show c ++ '/' :: joinSlash (y :: ys) = _
      rw [← hy, step]
      show c ++ '/' :: (joinSlash (c2 :: rest2) ++ '/' :: joinSlash l2) = _
      simp [joinSlash]

theorem getLast?_cons_ne_nil {α : Type} (x : α) (c : List α) (hc : c ≠ []) :
    (x :: c).getLast? = c.getLast? := by
  show ([x] ++ c).getLast? = _
  rw [List.getLast?_append]
  obtain ⟨y, hy⟩ := Option.isSome_iff_exists.mp (List.getLast?_isSome.mpr hc)
  simp [hy]

theorem head?_ne_slash_of_not_mem (c : List Char) (h : '/' ∉ c) : c.head? ≠ some '/' := by
  intro hcon
  obtain ⟨ys, hys⟩ := List.head?_eq_some_iff.mp hcon
  exact h (by rw [hys]; simp)

theorem getLast?_ne_slash_of_not_mem (c : List Char) (h : '/' ∉ c) : c.getLast? ≠ some '/' :=
  fun hcon => h (List.mem_of_getLast?_eq_some hcon)

theorem getLast?_append_cons_ne_slash (x c : List Char) (hc : c ≠ []) (hns : '/' ∉ c) :
    (x ++ '/' :: c).getLast? ≠ some '/' := by
  rw [List.getLast?_append, getLast?_cons_ne_nil '/' c hc]
  obtain ⟨y, hy⟩ := Option.isSome_iff_exists.mp (List.getLast?_isSome.mpr hc)
  rw [hy, Option.or_some]
  intro hcon
  exact getLast?_ne_slash_of_not_mem c hns (by rw [hy]; exact hcon)

theorem pyJoin2_clean (a b : List Char) (hb : b.head? ≠ some '/')
    (ha : a ≠ []) (hal : a.getLast? ≠ some '/') :
    pyJoin2 a b = a ++ '/' :: b := by
  unfold pyJoin2
  rw [if_neg hb, if_neg (by push_neg; exact ⟨ha, hal⟩)]

theorem joinSlash_cons_ne_nil (c : List Char) (l : List (List Char)) (h : l ≠ []) :
    joinSlash (c :: l) = c ++ '/' :: joinSlash l := by
  cases l with
  | nil => exact absurd rfl h
  | cons d rest => rfl

theorem normpath_clean_abs (comps : List (List Char)) (h : comps ≠ [])
    (hc : ∀ c ∈ comps, cleanComp c) :
    normpathChars ('/' :: joinSlash comps) = '/' :: joinSlash comps := by
  have hch : ∀ c ∈ comps, c ≠ [] ∧ '/' ∉ c := fun c hm => ⟨(hc c hm).1, (hc c hm).2.1⟩
  have hnn : joinSlash comps ≠ [] := joinSlash_ne_nil comps h (fun c hm => (hch c hm).1)
  have hhd : (joinSlash comps).head? ≠ some '/' := joinSlash_head?_ne_slash comps h hch
  have htake : ¬(('/' :: joinSlash comps).take 2 = ['/', '/'] ∧
      ('/' :: joinSlash comps).take 3 ≠ ['/', '/', '/']) := by
    rintro ⟨h2, -⟩
    cases hj : joinSlash comps with
    | nil => rw [hj] at h2; simp at h2
    | cons ch t =>
      rw [hj] at h2
      simp only [List.take_succ_cons, List.take] at h2
      exact hhd (by rw [hj, List.head?_cons]; simp at h2; simp [h2])
  have hsplit : splitSlash ('/' :: joinSlash comps) = [] :: comps := by
    have h1 : splitSlash (([] : List Char) ++ '/' :: joinSlash comps) =
        splitSlash [] ++ splitSlash (joinSlash comps) := splitSlash_append [] (joinSlash comps)
    rw [List.nil_append] at h1
    rw [h1, splitSlash_joinSlash comps h (fun c hm => (hch c hm).2)]
    rfl
  have hloop : normLoop true [] ([] :: comps) = comps.reverse := by
    rw [normLoop, if_pos (Or.inl rfl), normLoop_clean true comps [] hc]
    simp
  unfold normpathChars
  rw [if_neg (show ¬('/' :: joinSlash comps = []) by simp)]
  simp only [List.head?_cons, if_pos rfl, if_neg htake, hsplit]
  norm_num
  rw [hloop]
  simp

theorem isPrefixOf_append {α : Type} [BEq α] [LawfulBEq α] :
    ∀ l t : List α, l.isPrefixOf (l ++ t) = true
  | [], _ => by simp [List.isPrefixOf]
  | a :: l, t => by
    show (a == a && List.isPrefixOf l (l ++ t)) = true
    rw [isPrefixOf_append l t]
    simp

/-- C1, counterexample: `get_single_upstream_artifact_full_path` applies no
path-traversal guard: for work dir `/work`, task id `T1` and the relative path
`../../evil` it resolves (without rejecting the input — it is a total function
performing no I/O and raising nothing) to `/work/evil`, which lies outside
`work_dir/cot/T1/`. -/
theorem C1_counterexample_traversal_not_rejected :
    get_single_upstream_artifact_full_path "/cwd" "/work" "T1" "../../evil" = "/work/evil" ∧
    isUnder "/work/cot/T1"
      (get_single_upstream_artifact_full_path "/cwd" "/work" "T1" "../../evil") = false := by
  constructor
  · rfl
  · rfl

/-- C1, amended: the resolved local path of an upstream artifact is
`abspath(join(work_dir, 'cot', task_id, path))`; no rejection of any input
ever occurs.  For every absolute normalised work dir, slash-free task id and
relative path whose components are free of `..` (and `.`, empty and absolute
components), the resolved path does fall under `work_dir/cot/<task_id>/`. -/
theorem C1_amended_resolved_path_under_root (cwd : String)
    (workComps pathComps : List (List Char)) (taskId : List Char)
    (hW : workComps ≠ []) (hWc : ∀ c ∈ workComps, cleanComp c)
    (hP : pathComps ≠ []) (hPc : ∀ c ∈ pathComps, cleanComp c)
    (hT : cleanComp taskId) :
    isUnder (('/' :: joinSlash workComps).asString ++ "/cot/" ++ taskId.asString)
      (get_single_upstream_artifact_full_path cwd ('/' :: joinSlash workComps).asString
        taskId.asString (joinSlash pathComps).asString) = true := by
  obtain ⟨hTne, hTns, hTd, hTdd⟩ := hT
  have hWch : ∀ c ∈ workComps, c ≠ [] ∧ '/' ∉ c := fun c hm => ⟨(hWc c hm).1, (hWc c hm).2.1⟩
  have hPch : ∀ c ∈ pathComps, c ≠ [] ∧ '/' ∉ c := fun c hm => ⟨(hPc c hm).1, (hPc c hm).2.1⟩
  have hWnn : joinSlash workComps ≠ [] := joinSlash_ne_nil _ hW (fun c hm => (hWch c hm).1)
  have hPnn : joinSlash pathComps ≠ [] := joinSlash_ne_nil _ hP (fun c hm => (hPch c hm).1)
  have hcot : ("cot".toList : List Char) = ['c', 'o', 't'] := rfl
  -- the three applications of posixpath.join
  have hj1 : pyJoin2 ('/' :: joinSlash workComps) "cot".toList =
      ('/' :: joinSlash workComps) ++ '/' :: "cot".toList := by
    apply pyJoin2_clean
    · rw [hcot]; simp
    · simp
    · rw [getLast?_cons_ne_nil '/' _ hWnn]
      exact joinSlash_getLast?_ne_slash workComps hW hWch
  have hj2 : pyJoin2 (('/' :: joinSlash workComps) ++ '/' :: "cot".toList) taskId =
      (('/' :: joinSlash workComps) ++ '/' :: "cot".toList) ++ '/' :: taskId := by
    apply pyJoin2_clean
    · exact head?_ne_slash_of_not_mem taskId hTns
    · simp
    · exact getLast?_append_cons_ne_slash _ _ (by rw [hcot]; simp) (by rw [hcot]; decide)
  have hj3 : pyJoin2 ((('/' :: joinSlash workComps) ++ '/' :: "cot".toList) ++ '/' :: taskId)
      (joinSlash pathComps) =
      ((('/' :: joinSlash workComps) ++ '/' :: "cot".toList) ++ '/' :: taskId) ++
        '/' :: joinSlash pathComps := by
    apply pyJoin2_clean
    · exact joinSlash_head?_ne_slash pathComps hP hPch
    · simp
    · exact getLast?_append_cons_ne_slash _ _ hTne hTns
  -- the joined path as a single component list
  have hall : ('/' :: joinSlash workComps) ++ '/' :: "cot".toList ++ '/' :: taskId ++
      '/' :: joinSlash pathComps =
      '/' :: joinSlash (workComps ++ "cot".toList :: taskId :: pathComps) := by
    rw [joinSlash_append workComps _ hW (by simp),
      joinSlash_cons_ne_nil _ _ (by simp), joinSlash_cons_ne_nil _ _ hP]
    simp
  have hallne : workComps ++ "cot".toList :: taskId :: pathComps ≠ [] := by simp
  have hallclean : ∀ c ∈ workComps ++ "cot".toList :: taskId :: pathComps, cleanComp c := by
    intro c hm
    rcases List.mem_append.mp hm with hm | hm
    · exact hWc c hm
    · rcases List.mem_cons.mp hm with rfl | hm
      · rw [hcot]; decide
      · rcases List.mem_cons.mp hm with rfl | hm
        · exact ⟨hTne, hTns, hTd, hTdd⟩
        · exact hPc c hm
  -- resolve the full function application
  have htl1 : (('/' :: joinSlash workComps).asString).toList = '/' :: joinSlash workComps := rfl
  have htl2 : (taskId.asString).toList = taskId := rfl
  have htl3 : ((joinSlash pathComps).asString).toList = joinSlash pathComps := rfl
  unfold get_single_upstream_artifact_full_path
  rw [htl1, htl2, htl3, hj1, hj2, hj3]
  unfold abspathChars
  rw [List.append_assoc, List.append_assoc] at hall ⊢
  rw [hall,
    if_pos (show ('/' :: joinSlash (workComps ++ "cot".toList :: taskId :: pathComps)).head? =
      some '/' from rfl),
    normpath_clean_abs _ hallne hallclean]
  unfold isUnder
  have htl4 : (('/' :: joinSlash (workComps ++ "cot".toList :: taskId :: pathComps)).asString).toList
      = '/' :: joinSlash (workComps ++ "cot".toList :: taskId :: pathComps) := rfl
  rw [htl4]
  have hdecomp : ((('/' :: joinSlash workComps).asString ++ "/cot/" ++ taskId.asString ++ "/") :
        String).toList ++ joinSlash pathComps =
      '/' :: joinSlash (workComps ++ "cot".toList :: taskId :: pathComps) := by
    rw [joinSlash_append workComps _ hW (by simp),
      joinSlash_cons_ne_nil _ _ (by simp), joinSlash_cons_ne_nil _ _ hP]
    show (((('/' :: joinSlash workComps).asString ++ "/cot/" ++ taskId.asString ++ "/") : String)).data
        ++ joinSlash pathComps = _
    simp only [String.data_append]
    show ('/' :: joinSlash workComps) ++ ['/', 'c', 'o', 't', '/'] ++ taskId ++ ['/'] ++
        joinSlash pathComps =
      '/' :: (joinSlash workComps ++ '/' ::
        ("cot".toList ++ '/' :: (taskId ++ '/' :: joinSlash pathComps)))
    rw [hcot]
    simp
  rw [← hdecomp]
  exact isPrefixOf_append _ _

/-- Witness for the amended C1 at a concrete input. -/
theorem C1_amended_resolved_path_under_root_witness :
    isUnder (('/' :: joinSlash [['w']]).asString ++ "/cot/" ++ (['T'] : List Char).asString)
      (get_single_upstream_artifact_full_path "/c" ('/' :: joinSlash [['w']]).asString
        (['T'] : List Char).asString (joinSlash [['a']]).asString) = true :=
  C1_amended_resolved_path_under_root "/c" [['w']] [['a']] ['T']
    (by decide) (by decide) (by decide) (by decide) (by decide)

/-! ## Lemmas for content-type classification and compression -/

theorem gzipped_ne : ∀ c : FileContent, FileContent.gzipped c ≠ c
  | FileContent.raw _, h => FileContent.noConfusion h
  | FileContent.gzipped c, h => gzipped_ne c (by injection h)

theorem pyEndsWith_disjoint {path a b : String} (h : pyEndsWith path a = true)
    (hab : ¬(a.toList <:+ b.toList)) (hba : ¬(b.toList <:+ a.toList)) :
    pyEndsWith path b = false := by
  unfold pyEndsWith at h ⊢
  rw [List.isSuffixOf_iff_suffix] at h
  rw [Bool.eq_false_iff]
  intro hcon
  rw [List.isSuffixOf_iff_suffix] at hcon
  rcases List.suffix_or_suffix_of_suffix h hcon with hs | hs
  · exact hab hs
  · exact hba hs

theorem find?_append_of_false {α : Type} (p : α → Bool) (pre l : List α)
    (hpre : ∀ x ∈ pre, p x = false) : List.find? p (pre ++ l) = List.find? p l := by
  induction pre with
  | nil => rfl
  | cons x rest ih =>
    have hx : ¬(p x = true) := by simp [hpre x (by simp)]
    rw [List.cons_append, List.find?_cons_of_neg _ hx,
      ih (fun y hy => hpre y (List.mem_cons_of_mem _ hy))]

theorem guess_eq_of_table (guess_type : String → Option String × Option String) (path : String)
    (pre : List (String × String × Option String)) (e : String × String × Option String)
    (l : List (String × String × Option String))
    (htab : _EXTENSION_TO_MIME_TYPE = pre ++ e :: l)
    (hpre : ∀ x ∈ pre, pyEndsWith path x.1 = false)
    (he : pyEndsWith path e.1 = true) :
    guess_content_type_and_encoding guess_type path = e.2 := by
  unfold guess_content_type_and_encoding
  rw [htab, find?_append_of_false _ pre _ hpre,
    @List.find?_cons_of_pos _ (fun x => pyEndsWith path x.1) e l he]

/-- C2: `compress_artifact_if_supported` gzip-compresses the file in place
(replacing its bytes) and returns encoding `"gzip"` if and only if the guessed
encoding was `None` and the guessed content type is in
`{text/plain, application/json, text/html, application/xml}`; in particular
for every path ending in `.tar.gz`, `.tgz` or `.dmg` the bytes are untouched
and the returned encoding is `None`. -/
theorem C2_compress_policy (guess_type : String → Option String × Option String)
    (path : String) (content : FileContent) :
    (((compress_artifact_if_supported guess_type path content).2 = FileContent.gzipped content ∧
      (compress_artifact_if_supported guess_type path content).1.2 = some "gzip") ↔
      ((guess_content_type_and_encoding guess_type path).2 = none ∧
        (guess_content_type_and_encoding guess_type path).1 ∈ _GZIP_SUPPORTED_CONTENT_TYPE)) ∧
    ((pyEndsWith path ".tar.gz" = true ∨ pyEndsWith path ".tgz" = true ∨
        pyEndsWith path ".dmg" = true) →
      (compress_artifact_if_supported guess_type path content).2 = content ∧
      (compress_artifact_if_supported guess_type path content).1.2 = none) := by
  constructor
  · unfold compress_artifact_if_supported
    by_cases hcond : (guess_content_type_and_encoding guess_type path).2 = none ∧
        (guess_content_type_and_encoding guess_type path).1 ∈ _GZIP_SUPPORTED_CONTENT_TYPE
    · rw [if_pos hcond]
      exact iff_of_true ⟨rfl, rfl⟩ hcond
    · rw [if_neg hcond]
      exact iff_of_false (fun h => gzipped_ne content h.1.symm) hcond
  · rintro (h | h | h)
    · have hg : guess_content_type_and_encoding guess_type path = ("application/x-tar", none) :=
        guess_eq_of_table guess_type path [] (".tar.gz", "application/x-tar", none) _ rfl
          (by simp) h
      unfold compress_artifact_if_supported
      rw [hg, if_neg (by decide)]
      exact ⟨rfl, rfl⟩
    · have h1 : pyEndsWith path ".tar.gz" = false :=
        pyEndsWith_disjoint h (by decide) (by decide)
      have hg : guess_content_type_and_encoding guess_type path = ("application/x-tar", none) :=
        guess_eq_of_table guess_type path [(".tar.gz", "application/x-tar", none)]
          (".tgz", "application/x-tar", none) _ rfl (by simp [h1]) h
      unfold compress_artifact_if_supported
      rw [hg, if_neg (by decide)]
      exact ⟨rfl, rfl⟩
    · have h1 : pyEndsWith path ".tar.gz" = false :=
        pyEndsWith_disjoint h (by decide) (by decide)
      have h2 : pyEndsWith path ".tgz" = false :=
        pyEndsWith_disjoint h (by decide) (by decide)
      have h3 : pyEndsWith path ".txt" = false :=
        pyEndsWith_disjoint h (by decide) (by decide)
      have hg : guess_content_type_and_encoding guess_type path =
          ("application/x-apple-diskimage", none) :=
        guess_eq_of_table guess_type path
          [(".tar.gz", "application/x-tar", none), (".tgz", "application/x-tar", none),
           (".txt", "text/plain", none)]
          (".dmg", "application/x-apple-diskimage", none) _ rfl
          (by intro x hx; fin_cases hx <;> simp [h1, h2, h3]) h
      unfold compress_artifact_if_supported
      rw [hg, if_neg (by decide)]
      exact ⟨rfl, rfl⟩

/-- Witness for C2 at concrete inputs: a `.tgz` file is left untouched with
encoding `None`, and a file classified `text/plain` with no encoding is
replaced by its gzipped bytes with encoding `"gzip"`. -/
theorem C2_compress_policy_witness :
    ((compress_artifact_if_supported (fun _ => (none, none)) "build.tgz"
        (FileContent.raw [7])).2 = FileContent.raw [7] ∧
      (compress_artifact_if_supported (fun _ => (none, none)) "build.tgz"
        (FileContent.raw [7])).1.2 = none) ∧
    ((compress_artifact_if_supported (fun _ => (none, none)) "output.log"
        (FileContent.raw [7])).2 = FileContent.gzipped (FileContent.raw [7]) ∧
      (compress_artifact_if_supported (fun _ => (none, none)) "output.log"
        (FileContent.raw [7])).1.2 = some "gzip") :=
  ⟨(C2_compress_policy (fun _ => (none, none)) "build.tgz" (FileContent.raw [7])).2
      (Or.inr (Or.inl (by decide))),
    (C2_compress_policy (fun _ => (none, none)) "output.log" (FileContent.raw [7])).1.mpr
      (by decide)⟩

/-- C7: `guess_content_type_and_encoding` consults the extension table before
the generic guesser — `.xml` always yields `("application/xml", None)` whatever
the guesser proposes, `build.tar.gz` yields `("application/x-tar", None)`,
`output.log` yields `("text/plain", None)` — and for paths matching no table
entry the generic guesser's result is used, the content type defaulting to
`"application/binary"`. -/
theorem C7_extension_table_precedence (guess_type : String → Option String × Option String)
    (path : String) :
    (pyEndsWith path ".xml" = true →
      guess_content_type_and_encoding guess_type path = ("application/xml", none)) ∧
    guess_content_type_and_encoding guess_type "build.tar.gz" = ("application/x-tar", none) ∧
    guess_content_type_and_encoding guess_type "output.log" = ("text/plain", none) ∧
    ((∀ e ∈ _EXTENSION_TO_MIME_TYPE, pyEndsWith path e.1 = false) →
      guess_content_type_and_encoding guess_type path =
        ((guess_type path).1.getD "application/binary", (guess_type path).2)) := by
  refine ⟨?_, ?_, ?_, ?_⟩
  · intro h
    refine guess_eq_of_table guess_type path
      [(".tar.gz", "application/x-tar", none), (".tgz", "application/x-tar", none),
       (".txt", "text/plain", none), (".dmg", "application/x-apple-diskimage", none),
       (".log", "text/plain", none), (".asc", "text/plain", none),
       (".diff", "text/plain", none)] (".xml", "application/xml", none) [] rfl ?_ h
    intro x hx
    fin_cases hx <;> exact pyEndsWith_disjoint h (by decide) (by decide)
  · exact guess_eq_of_table guess_type "build.tar.gz" []
      (".tar.gz", "application/x-tar", none) _ rfl (by simp) (by decide)
  · have h1 : pyEndsWith "output.log" ".tar.gz" = false := by decide
    have h2 : pyEndsWith "output.log" ".tgz" = false := by decide
    have h3 : pyEndsWith "output.log" ".txt" = false := by decide
    have h4 : pyEndsWith "output.log" ".dmg" = false := by decide
    exact guess_eq_of_table guess_type "output.log"
      [(".tar.gz", "application/x-tar", none), (".tgz", "application/x-tar", none),
       (".txt", "text/plain", none), (".dmg", "application/x-apple-diskimage", none)]
      (".log", "text/plain", none) _ rfl
      (by intro x hx; fin_cases hx <;> simp [h1, h2, h3, h4]) (by decide)
  · intro hall
    unfold guess_content_type_and_encoding
    rw [List.find?_eq_none.mpr (fun x hx => by simp [hall x hx])]

/-- Witness for C7 at concrete inputs: a `.xml` path served from the table and
a table-free path served by the generic guesser with its default. -/
theorem C7_extension_table_precedence_witness :
    guess_content_type_and_encoding (fun _ => (some "text/weird", some "enc")) "a.xml" =
      ("application/xml", none) ∧
    guess_content_type_and_encoding (fun _ => (none, some "gzip")) "a.bin" =
      ("application/binary", some "gzip") :=
  ⟨(C7_extension_table_precedence (fun _ => (some "text/weird", some "enc")) "a.xml").1
      (by decide),
    (C7_extension_table_precedence (fun _ => (none, some "gzip")) "a.bin").2.2.2
      (by decide)⟩

/-! ## Lemmas about the association-list dicts -/

theorem lookup_map_update (d : List (String × List String)) (k : String) (items : List String) :
    List.lookup k (d.map (fun kv => if kv.1 == k then (kv.1, kv.2 ++ items) else kv)) =
      (List.lookup k d).map (fun v => v ++ items) := by
  induction d with
  | nil => rfl
  | cons kv rest ih =>
    obtain ⟨k1, v1⟩ := kv
    simp only [beq_iff_eq] at ih
    by_cases h : k1 = k
    · subst h
      simp [List.lookup_cons, ih]
    · have h' : ¬(k = k1) := fun he => h he.symm
      have hb : (k1 == k) = false := beq_false_of_ne h
      have hb' : (k == k1) = false := beq_false_of_ne h'
      simp [List.lookup_cons, h, h', hb, hb', ih]

theorem lookup_map_update_other (d : List (String × List String)) (k k' : String)
    (items : List String) (h : k' ≠ k) :
    List.lookup k' (d.map (fun kv => if kv.1 == k then (kv.1, kv.2 ++ items) else kv)) =
      List.lookup k' d := by
  induction d with
  | nil => rfl
  | cons kv rest ih =>
    obtain ⟨k1, v1⟩ := kv
    simp only [beq_iff_eq] at ih
    have hbk : (k' == k) = false := beq_false_of_ne h
    by_cases hk : k' = k1
    · subst hk
      simp [List.lookup_cons, h, hbk, ih]
    · have hb' : (k' == k1) = false := beq_false_of_ne hk
      by_cases hu : k1 = k <;> simp [List.lookup_cons, hk, hbk, hb', hu, ih]

theorem lookup_eq_none_of_all_ne (d : List (String × List String)) (k : String)
    (h : ∀ kv ∈ d, kv.1 ≠ k) : List.lookup k d = none := by
  induction d with
  | nil => rfl
  | cons kv rest ih =>
    obtain ⟨k1, v1⟩ := kv
    have h' : ¬(k = k1) := fun he => h (k1, v1) (by simp) he.symm
    have hb : (k == k1) = false := beq_false_of_ne h'
    simp [List.lookup_cons, h', hb, ih (fun x hx => h x (List.mem_cons_of_mem _ hx))]

theorem lookup_append_of_all_ne (d l : List (String × List String)) (k : String)
    (h : ∀ kv ∈ d, kv.1 ≠ k) : List.lookup k (d ++ l) = List.lookup k l := by
  induction d with
  | nil => rfl
  | cons kv rest ih =>
    obtain ⟨k1, v1⟩ := kv
    have h' : ¬(k = k1) := fun he => h (k1, v1) (by simp) he.symm
    have hb : (k == k1) = false := beq_false_of_ne h'
    simp [List.lookup_cons, h', hb, ih (fun x hx => h x (List.mem_cons_of_mem _ hx))]

theorem lookup_append_left (d l : List (String × List String)) (k : String) (v : List String)
    (h : List.lookup k d = some v) : List.lookup k (d ++ l) = some v := by
  induction d with
  | nil => simp at h
  | cons kv rest ih =>
    obtain ⟨k1, v1⟩ := kv
    by_cases hk : k = k1
    · subst hk
      simp [List.lookup_cons] at h ⊢
      exact h
    · have hb : (k == k1) = false := beq_false_of_ne hk
      simp [List.lookup_cons, hk, hb] at h ⊢
      exact ih h

theorem lookup_isSome_of_any (d : List (String × List String)) (k : String)
    (h : d.any (fun kv => kv.1 == k) = true) : ∃ v, List.lookup k d = some v := by
  induction d with
  | nil => simp at h
  | cons kv rest ih =>
    obtain ⟨k1, v1⟩ := kv
    by_cases hk : k1 = k
    · subst hk
      exact ⟨v1, by simp [List.lookup_cons]⟩
    · have hb : (k1 == k) = false := beq_false_of_ne hk
      have hb' : (k == k1) = false := beq_false_of_ne (fun he => hk he.symm)
      simp only [List.any_cons, hb, Bool.false_or] at h
      obtain ⟨v, hv⟩ := ih h
      exact ⟨v, by simp [List.lookup_cons, hb', hv]⟩

theorem all_ne_of_lookup_eq_none (d : List (String × List String)) (k : String)
    (h : List.lookup k d = none) : ∀ kv ∈ d, kv.1 ≠ k := by
  induction d with
  | nil => intro kv hm; simp at hm
  | cons kv0 rest ih =>
    obtain ⟨k1, v1⟩ := kv0
    intro kv hm
    by_cases hk : k = k1
    · subst hk
      simp [List.lookup_cons] at h
    · have hb : (k == k1) = false := beq_false_of_ne hk
      simp only [List.lookup_cons, hb] at h
      rcases List.mem_cons.mp hm with rfl | hm'
      · exact fun he => hk he.symm
      · exact ih h kv hm'

theorem lookup_add_self (d : List (String × List String)) (k : String) (items : List String) :
    List.lookup k (add_enumerable_item_to_dict d k items) =
      some ((List.lookup k d).getD [] ++ items) := by
  unfold add_enumerable_item_to_dict
  by_cases h : d.any (fun kv => kv.1 == k) = true
  · rw [if_pos h, lookup_map_update]
    obtain ⟨v, hv⟩ := lookup_isSome_of_any d k h
    rw [hv]
    rfl
  · have hall : ∀ kv ∈ d, kv.1 ≠ k := by
      intro kv hm hk
      exact h (List.any_eq_true.mpr ⟨kv, hm, by simp [hk]⟩)
    rw [if_neg h, lookup_append_of_all_ne d _ k hall, lookup_eq_none_of_all_ne d k hall]
    simp [List.lookup_cons]

theorem lookup_add_other (d : List (String × List String)) (k k' : String)
    (items : List String) (h : k' ≠ k) :
    List.lookup k' (add_enumerable_item_to_dict d k items) = List.lookup k' d := by
  unfold add_enumerable_item_to_dict
  by_cases hany : d.any (fun kv => kv.1 == k) = true
  · rw [if_pos hany, lookup_map_update_other d k k' items h]
  · rw [if_neg hany]
    cases hv : List.lookup k' d with
    | none =>
      rw [lookup_append_of_all_ne d _ k' (all_ne_of_lookup_eq_none d k' hv)]
      simp [List.lookup_cons, beq_false_of_ne h]
    | some v => exact lookup_append_left d _ k' v hv

theorem keys_add (d : List (String × List String)) (k : String) (items : List String) :
    (add_enumerable_item_to_dict d k items).map Prod.fst =
      if d.any (fun kv => kv.1 == k) = true then d.map Prod.fst else d.map Prod.fst ++ [k] := by
  unfold add_enumerable_item_to_dict
  by_cases h : d.any (fun kv => kv.1 == k) = true
  · rw [if_pos h, if_pos h, List.map_map]
    apply List.map_congr_left
    intro kv hm
    by_cases hk : kv.1 = k <;> simp [hk]
  · rw [if_neg h, if_neg h]
    simp

theorem keysNodup_add (d : List (String × List String)) (k : String) (items : List String)
    (h : keysNodup d) : keysNodup (add_enumerable_item_to_dict d k items) := by
  unfold keysNodup at h ⊢
  rw [keys_add]
  by_cases hany : d.any (fun kv => kv.1 == k) = true
  · rwa [if_pos hany]
  · rw [if_neg hany]
    have hall : ∀ kv ∈ d, kv.1 ≠ k := by
      intro kv hm hk
      exact hany (List.any_eq_true.mpr ⟨kv, hm, by simp [hk]⟩)
    refine List.Nodup.append h (List.nodup_singleton k) ?_
    intro x hx hxk
    obtain ⟨kv, hm, rfl⟩ := List.mem_map.mp hx
    simp only [List.mem_singleton] at hxk
    exact hall kv hm hxk

theorem optPaths_eq_nil_of_any_false (t : String) (defs : List ArtifactDefinition)
    (h : defs.any (fun a => a.optional && a.taskId == t) = false) : optPaths t defs = [] := by
  unfold optPaths
  rw [List.filter_eq_nil_iff.mpr]
  · rfl
  · intro a ha
    simp only [List.any_eq_false] at h
    simp [h a ha]

theorem optfold_lookup (t : String) (defs : List ArtifactDefinition) :
    ∀ acc : List (String × List String),
      List.lookup t (defs.foldl
        (fun d a => if a.optional then add_enumerable_item_to_dict d a.taskId a.paths else d)
        acc) =
      (if defs.any (fun a => a.optional && a.taskId == t) then
        some ((List.lookup t acc).getD [] ++ optPaths t defs)
      else List.lookup t acc) := by
  induction defs with
  | nil => intro acc; simp [optPaths]
  | cons a rest ih =>
    intro acc
    rw [List.foldl_cons]
    by_cases hopt : a.optional
    · by_cases htid : a.taskId = t
      · subst htid
        rw [if_pos hopt, ih]
        have hadd := lookup_add_self acc a.taskId a.paths
        have hhead : (a.optional && (a.taskId == a.taskId)) = true := by simp [hopt]
        have hcons : optPaths a.taskId (a :: rest) = a.paths ++ optPaths a.taskId rest := by
          unfold optPaths
          simp [List.filter_cons, hhead, hopt]
        have hany : ((a :: rest).any fun x => x.optional && x.taskId == a.taskId) = true := by
          simp only [List.any_cons, hhead, Bool.true_or]
        by_cases hrest : rest.any (fun x => x.optional && x.taskId == a.taskId) = true
        · rw [if_pos hrest, if_pos hany, hadd, hcons]
          simp
        · rw [if_neg hrest, if_pos hany, hadd, hcons,
            optPaths_eq_nil_of_any_false _ _ (by simpa using hrest)]
          simp
      · rw [if_pos hopt, ih, lookup_add_other acc a.taskId t a.paths (fun he => htid he.symm)]
        have hhead : (a.optional && (a.taskId == t)) = false := by
          simp [beq_false_of_ne htid]
        have hcons : optPaths t (a :: rest) = optPaths t rest := by
          unfold optPaths
          rw [List.filter_cons_of_neg (by simp [hhead])]
        rw [hcons]
        simp [List.any_cons, hhead]
    · have hopt' : a.optional = false := by simpa using hopt
      rw [if_neg hopt, ih]
      have hhead : (a.optional && (a.taskId == t)) = false := by simp [hopt']
      have hcons : optPaths t (a :: rest) = optPaths t rest := by
        unfold optPaths
        rw [List.filter_cons_of_neg (by simp [hhead])]
      rw [hcons]
      simp [List.any_cons, hhead]

theorem keysNodup_optfold (defs : List ArtifactDefinition) :
    ∀ acc, keysNodup acc → keysNodup (defs.foldl
      (fun d a => if a.optional then add_enumerable_item_to_dict d a.taskId a.paths else d)
      acc) := by
  induction defs with
  | nil => intro acc h; exact h
  | cons a rest ih =>
    intro acc h
    rw [List.foldl_cons]
    by_cases hopt : a.optional
    · rw [if_pos hopt]
      exact ih _ (keysNodup_add acc a.taskId a.paths h)
    · rw [if_neg hopt]
      exact ih _ h

/-- C10: `get_optional_artifacts_per_task_id` returns at most one entry per
task id; the entry for `t` exists exactly when some optional definition names
`t`, and it accumulates the paths of all optional definitions for `t` in
declaration order (later definitions extend, never replace, earlier ones);
definitions without the optional flag contribute nothing. -/
theorem C10_optional_artifacts_accumulate (defs : List ArtifactDefinition) (t : String) :
    keysNodup (get_optional_artifacts_per_task_id defs) ∧
    List.lookup t (get_optional_artifacts_per_task_id defs) =
      (if defs.any (fun a => a.optional && a.taskId == t) then some (optPaths t defs)
       else none) := by
  constructor
  · exact keysNodup_optfold defs [] (by simp [keysNodup])
  · unfold get_optional_artifacts_per_task_id
    rw [optfold_lookup]
    simp

/-! ## Lemmas for upstream artifact resolution -/

theorem get_and_check_eq_ok (pe : String → Bool) (cwd wd tid p : String)
    (h : pe (get_single_upstream_artifact_full_path cwd wd tid p) = true) :
    get_and_check_single_upstream_artifact_full_path pe cwd wd tid p =
      Except.ok (get_single_upstream_artifact_full_path cwd wd tid p) := by
  unfold get_and_check_single_upstream_artifact_full_path
  rw [if_pos h]

theorem get_and_check_eq_error (pe : String → Bool) (cwd wd tid p : String)
    (h : pe (get_single_upstream_artifact_full_path cwd wd tid p) = false) :
    get_and_check_single_upstream_artifact_full_path pe cwd wd tid p =
      Except.error (ScriptWorkerError.taskException
        ("upstream artifact with path: " ++
          get_single_upstream_artifact_full_path cwd wd tid p ++ ", does not exist")) := by
  unfold get_and_check_single_upstream_artifact_full_path
  rw [if_neg (by simp [h])]

theorem upstreamLoop_cons_ok (pe : String → Bool) (cwd wd : String)
    (omap full failed : List (String × List String)) (tid p : String)
    (rest : List (String × String))
    (h : pe (get_single_upstream_artifact_full_path cwd wd tid p) = true) :
    upstreamLoop pe cwd wd omap full failed ((tid, p) :: rest) =
      upstreamLoop pe cwd wd omap
        (add_enumerable_item_to_dict full tid
          [get_single_upstream_artifact_full_path cwd wd tid p]) failed rest := by
  rw [upstreamLoop, get_and_check_eq_ok pe cwd wd tid p h]

theorem upstreamLoop_cons_opt (pe : String → Bool) (cwd wd : String)
    (omap full failed : List (String × List String)) (tid p : String)
    (rest : List (String × String))
    (h : pe (get_single_upstream_artifact_full_path cwd wd tid p) = false)
    (hopt : p ∈ (List.lookup tid omap).getD []) :
    upstreamLoop pe cwd wd omap full failed ((tid, p) :: rest) =
      upstreamLoop pe cwd wd omap full (add_enumerable_item_to_dict failed tid [p]) rest := by
  rw [upstreamLoop, get_and_check_eq_error pe cwd wd tid p h]
  show (if p ∈ (List.lookup tid omap).getD [] then _ else _) = _
  rw [if_pos hopt]

theorem upstreamLoop_cons_err (pe : String → Bool) (cwd wd : String)
    (omap full failed : List (String × List String)) (tid p : String)
    (rest : List (String × String))
    (h : pe (get_single_upstream_artifact_full_path cwd wd tid p) = false)
    (hnopt : p ∉ (List.lookup tid omap).getD []) :
    upstreamLoop pe cwd wd omap full failed ((tid, p) :: rest) =
      Except.error (ScriptWorkerError.taskException
        ("upstream artifact with path: " ++
          get_single_upstream_artifact_full_path cwd wd tid p ++ ", does not exist")) := by
  rw [upstreamLoop, get_and_check_eq_error pe cwd wd tid p h]
  show (if p ∈ (List.lookup tid omap).getD [] then _ else _) = _
  rw [if_neg hnopt]

theorem upstreamLoop_error (pe : String → Bool) (cwd wd : String)
    (omap : List (String × List String)) (pairs : List (String × String)) :
    ∀ (full failed : List (String × List String)),
      (∃ tp ∈ pairs, pe (get_single_upstream_artifact_full_path cwd wd tp.1 tp.2) = false ∧
        tp.2 ∉ (List.lookup tp.1 omap).getD []) →
      ∃ tp ∈ pairs, pe (get_single_upstream_artifact_full_path cwd wd tp.1 tp.2) = false ∧
        tp.2 ∉ (List.lookup tp.1 omap).getD [] ∧
        upstreamLoop pe cwd wd omap full failed pairs =
          Except.error (ScriptWorkerError.taskException
            ("upstream artifact with path: " ++
              get_single_upstream_artifact_full_path cwd wd tp.1 tp.2 ++
              ", does not exist")) := by
  induction pairs with
  | nil =>
    rintro full failed ⟨tp, htp, -⟩
    simp at htp
  | cons hd rest ih =>
    rintro full failed ⟨tp, htp, hmiss, hnopt⟩
    obtain ⟨tid, p⟩ := hd
    by_cases hpe : pe (get_single_upstream_artifact_full_path cwd wd tid p) = true
    · have hrest : ∃ tp ∈ rest,
          pe (get_single_upstream_artifact_full_path cwd wd tp.1 tp.2) = false ∧
          tp.2 ∉ (List.lookup tp.1 omap).getD [] := by
        rcases List.mem_cons.mp htp with rfl | hm
        · rw [hpe] at hmiss
          exact absurd hmiss (by simp)
        · exact ⟨tp, hm, hmiss, hnopt⟩
      obtain ⟨tp', hm', hmiss', hnopt', heq⟩ := ih _ _ hrest
      exact ⟨tp', List.mem_cons_of_mem _ hm', hmiss', hnopt',
        by rw [upstreamLoop_cons_ok pe cwd wd omap full failed tid p rest hpe]; exact heq⟩
    · have hpe' : pe (get_single_upstream_artifact_full_path cwd wd tid p) = false := by
        simpa using hpe
      by_cases hopt : p ∈ (List.lookup tid omap).getD []
      · have hrest : ∃ tp ∈ rest,
            pe (get_single_upstream_artifact_full_path cwd wd tp.1 tp.2) = false ∧
            tp.2 ∉ (List.lookup tp.1 omap).getD [] := by
          rcases List.mem_cons.mp htp with rfl | hm
          · exact absurd hopt hnopt
          · exact ⟨tp, hm, hmiss, hnopt⟩
        obtain ⟨tp', hm', hmiss', hnopt', heq⟩ := ih _ _ hrest
        exact ⟨tp', List.mem_cons_of_mem _ hm', hmiss', hnopt',
          by rw [upstreamLoop_cons_opt pe cwd wd omap full failed tid p rest hpe' hopt]
             exact heq⟩
      · exact ⟨(tid, p), by simp, hpe', hopt,
          upstreamLoop_cons_err pe cwd wd omap full failed tid p rest hpe' hopt⟩

theorem upstreamLoop_ok_lookup (pe : String → Bool) (cwd wd : String)
    (omap : List (String × List String)) (t : String) (pairs : List (String × String)) :
    ∀ (full failed : List (String × List String)),
      (∀ tp ∈ pairs, pe (get_single_upstream_artifact_full_path cwd wd tp.1 tp.2) = false →
        tp.2 ∈ (List.lookup tp.1 omap).getD []) →
      ∃ F G, upstreamLoop pe cwd wd omap full failed pairs = Except.ok (F, G) ∧
        List.lookup t F =
          (if existingFullPaths pe cwd wd t pairs = [] then List.lookup t full
           else some ((List.lookup t full).getD [] ++ existingFullPaths pe cwd wd t pairs)) ∧
        List.lookup t G =
          (if failedRelPaths pe cwd wd t pairs = [] then List.lookup t failed
           else some ((List.lookup t failed).getD [] ++ failedRelPaths pe cwd wd t pairs)) := by
  induction pairs with
  | nil =>
    intro full failed _
    exact ⟨full, failed, rfl, by simp [existingFullPaths], by simp [failedRelPaths]⟩
  | cons hd rest ih =>
    intro full failed hall
    obtain ⟨tid, p⟩ := hd
    have htail : ∀ tp ∈ rest,
        pe (get_single_upstream_artifact_full_path cwd wd tp.1 tp.2) = false →
        tp.2 ∈ (List.lookup tp.1 omap).getD [] :=
      fun tp hm => hall tp (List.mem_cons_of_mem _ hm)
    by_cases hpe : pe (get_single_upstream_artifact_full_path cwd wd tid p) = true
    · obtain ⟨F, G, heq, hF, hG⟩ := ih
        (add_enumerable_item_to_dict full tid
          [get_single_upstream_artifact_full_path cwd wd tid p]) failed htail
      refine ⟨F, G,
        by rw [upstreamLoop_cons_ok pe cwd wd omap full failed tid p rest hpe]; exact heq,
        ?_, ?_⟩
      · by_cases htid : tid = t
        · subst htid
          have hcond : ((tid, p).1 == tid &&
              pe (get_single_upstream_artifact_full_path cwd wd (tid, p).1 (tid, p).2)) =
              true := by simp [hpe]
          have hex : existingFullPaths pe cwd wd tid ((tid, p) :: rest) =
              get_single_upstream_artifact_full_path cwd wd tid p ::
                existingFullPaths pe cwd wd tid rest := by
            unfold existingFullPaths
            rw [List.filter_cons, if_pos hcond]
            simp
          rw [hex, hF, lookup_add_self]
          by_cases hrest : existingFullPaths pe cwd wd tid rest = []
          · rw [if_pos hrest, if_neg (by simp), hrest]
          · rw [if_neg hrest, if_neg (by simp)]
            simp
        · have hcond : ((tid, p).1 == t &&
              pe (get_single_upstream_artifact_full_path cwd wd (tid, p).1 (tid, p).2)) =
              false := by simp [beq_false_of_ne htid]
          have hex : existingFullPaths pe cwd wd t ((tid, p) :: rest) =
              existingFullPaths pe cwd wd t rest := by
            unfold existingFullPaths
            rw [List.filter_cons, if_neg (by simp [hcond])]
          rw [hex, hF, lookup_add_other full tid t _ (fun he => htid he.symm)]
      · have hcond : ((tid, p).1 == t &&
            !pe (get_single_upstream_artifact_full_path cwd wd (tid, p).1 (tid, p).2)) =
            false := by simp [hpe]
        have hfl : failedRelPaths pe cwd wd t ((tid, p) :: rest) =
            failedRelPaths pe cwd wd t rest := by
          unfold failedRelPaths
          rw [List.filter_cons, if_neg (by simp [hcond])]
        rw [hfl]
        exact hG
    · have hpe' : pe (get_single_upstream_artifact_full_path cwd wd tid p) = false := by
        simpa using hpe
      have hopt : p ∈ (List.lookup tid omap).getD [] := hall (tid, p) (by simp) hpe'
      obtain ⟨F, G, heq, hF, hG⟩ := ih full
        (add_enumerable_item_to_dict failed tid [p]) htail
      refine ⟨F, G,
        by rw [upstreamLoop_cons_opt pe cwd wd omap full failed tid p rest hpe' hopt]
           exact heq,
        ?_, ?_⟩
      · have hcond : ((tid, p).1 == t &&
            pe (get_single_upstream_artifact_full_path cwd wd (tid, p).1 (tid, p).2)) =
            false := by simp [hpe']
        have hex : existingFullPaths pe cwd wd t ((tid, p) :: rest) =
            existingFullPaths pe cwd wd t rest := by
          unfold existingFullPaths
          rw [List.filter_cons, if_neg (by simp [hcond])]
        rw [hex]
        exact hF
      · by_cases htid : tid = t
        · subst htid
          have hcond : ((tid, p).1 == tid &&
              !pe (get_single_upstream_artifact_full_path cwd wd (tid, p).1 (tid, p).2)) =
              true := by simp [hpe']
          have hfl : failedRelPaths pe cwd wd tid ((tid, p) :: rest) =
              p :: failedRelPaths pe cwd wd tid rest := by
            unfold failedRelPaths
            rw [List.filter_cons, if_pos hcond]
            simp
          rw [hfl, hG, lookup_add_self]
          by_cases hrest : failedRelPaths pe cwd wd tid rest = []
          · rw [if_pos hrest, if_neg (by simp), hrest]
          · rw [if_neg hrest, if_neg (by simp)]
            simp
        · have hcond : ((tid, p).1 == t &&
              !pe (get_single_upstream_artifact_full_path cwd wd (tid, p).1 (tid, p).2)) =
              false := by simp [beq_false_of_ne htid]
          have hfl : failedRelPaths pe cwd wd t ((tid, p) :: rest) =
              failedRelPaths pe cwd wd t rest := by
            unfold failedRelPaths
            rw [List.filter_cons, if_neg (by simp [hcond])]
          rw [hfl, hG, lookup_add_other failed tid t _ (fun he => htid he.symm)]

/-- C5: in `get_upstream_artifacts_full_paths_per_task_id`, a declared pair
whose file is missing and whose path is not marked optional for its task id
makes the whole resolution raise the (non-retryable) task exception naming the
missing path; when every missing pair is optional, resolution succeeds and
returns the two maps keyed by task id — the existing artifacts' full paths and
the failed-but-optional relative paths. -/
theorem C5_upstream_resolution (path_exists : String → Bool) (cwd work_dir : String)
    (defs : List ArtifactDefinition) :
    ((∃ tp ∈ taskIdRelPathPairs defs,
        path_exists (get_single_upstream_artifact_full_path cwd work_dir tp.1 tp.2) = false ∧
        tp.2 ∉ (List.lookup tp.1 (get_optional_artifacts_per_task_id defs)).getD []) →
      ∃ tp ∈ taskIdRelPathPairs defs,
        path_exists (get_single_upstream_artifact_full_path cwd work_dir tp.1 tp.2) = false ∧
        tp.2 ∉ (List.lookup tp.1 (get_optional_artifacts_per_task_id defs)).getD [] ∧
        get_upstream_artifacts_full_paths_per_task_id path_exists cwd work_dir defs =
          Except.error (ScriptWorkerError.taskException
            ("upstream artifact with path: " ++
              get_single_upstream_artifact_full_path cwd work_dir tp.1 tp.2 ++
              ", does not exist"))) ∧
    ((∀ tp ∈ taskIdRelPathPairs defs,
        path_exists (get_single_upstream_artifact_full_path cwd work_dir tp.1 tp.2) = false →
        tp.2 ∈ (List.lookup tp.1 (get_optional_artifacts_per_task_id defs)).getD []) →
      ∃ F G, get_upstream_artifacts_full_paths_per_task_id path_exists cwd work_dir defs =
          Except.ok (F, G) ∧
        (∀ t, List.lookup t F =
          (if existingFullPaths path_exists cwd work_dir t (taskIdRelPathPairs defs) = []
           then none
           else some (existingFullPaths path_exists cwd work_dir t (taskIdRelPathPairs defs)))) ∧
        (∀ t, List.lookup t G =
          (if failedRelPaths path_exists cwd work_dir t (taskIdRelPathPairs defs) = []
           then none
           else some (failedRelPaths path_exists cwd work_dir t (taskIdRelPathPairs defs))))) := by
  have hdef : get_upstream_artifacts_full_paths_per_task_id path_exists cwd work_dir defs =
      upstreamLoop path_exists cwd work_dir (get_optional_artifacts_per_task_id defs) [] []
        (taskIdRelPathPairs defs) := rfl
  constructor
  · intro hex
    obtain ⟨tp, hm, hmiss, hnopt, heq⟩ := upstreamLoop_error path_exists cwd work_dir
      (get_optional_artifacts_per_task_id defs) (taskIdRelPathPairs defs) [] [] hex
    exact ⟨tp, hm, hmiss, hnopt, by rw [hdef]; exact heq⟩
  · intro hall
    obtain ⟨F, G, heq, -, -⟩ := upstreamLoop_ok_lookup path_exists cwd work_dir
      (get_optional_artifacts_per_task_id defs) "" (taskIdRelPathPairs defs) [] [] hall
    refine ⟨F, G, by rw [hdef]; exact heq, ?_, ?_⟩
    · intro t
      obtain ⟨F', G', heq', hF', -⟩ := upstreamLoop_ok_lookup path_exists cwd work_dir
        (get_optional_artifacts_per_task_id defs) t (taskIdRelPathPairs defs) [] [] hall
      rw [heq] at heq'
      simp only [Except.ok.injEq, Prod.mk.injEq] at heq'
      obtain ⟨rfl, rfl⟩ := heq'
      simpa using hF'
    · intro t
      obtain ⟨F', G', heq', -, hG'⟩ := upstreamLoop_ok_lookup path_exists cwd work_dir
        (get_optional_artifacts_per_task_id defs) t (taskIdRelPathPairs defs) [] [] hall
      rw [heq] at heq'
      simp only [Except.ok.injEq, Prod.mk.injEq] at heq'
      obtain ⟨rfl, rfl⟩ := heq'
      simpa using hG'

/-- Witness for C5 at concrete inputs: one required missing path raises the
task exception; one optional missing path yields a successful resolution. -/
theorem C5_upstream_resolution_witness :
    (∃ tp ∈ taskIdRelPathPairs [ArtifactDefinition.mk "T1" ["a.txt"] false],
      (fun _ => false : String → Bool)
          (get_single_upstream_artifact_full_path "/cwd" "/work" tp.1 tp.2) = false ∧
      tp.2 ∉ (List.lookup tp.1 (get_optional_artifacts_per_task_id
        [ArtifactDefinition.mk "T1" ["a.txt"] false])).getD [] ∧
      get_upstream_artifacts_full_paths_per_task_id (fun _ => false) "/cwd" "/work"
          [ArtifactDefinition.mk "T1" ["a.txt"] false] =
        Except.error (ScriptWorkerError.taskException
          ("upstream artifact with path: " ++
            get_single_upstream_artifact_full_path "/cwd" "/work" tp.1 tp.2 ++
            ", does not exist"))) ∧
    (∃ F G, get_upstream_artifacts_full_paths_per_task_id (fun _ => false) "/cwd" "/work"
        [ArtifactDefinition.mk "T1" ["a.txt"] true] = Except.ok (F, G) ∧
      (∀ t, List.lookup t F =
        (if existingFullPaths (fun _ => false) "/cwd" "/work" t
            (taskIdRelPathPairs [ArtifactDefinition.mk "T1" ["a.txt"] true]) = []
         then none
         else some (existingFullPaths (fun _ => false) "/cwd" "/work" t
            (taskIdRelPathPairs [ArtifactDefinition.mk "T1" ["a.txt"] true])))) ∧
      (∀ t, List.lookup t G =
        (if failedRelPaths (fun _ => false) "/cwd" "/work" t
            (taskIdRelPathPairs [ArtifactDefinition.mk "T1" ["a.txt"] true]) = []
         then none
         else some (failedRelPaths (fun _ => false) "/cwd" "/work" t
            (taskIdRelPathPairs [ArtifactDefinition.mk "T1" ["a.txt"] true]))))) :=
  ⟨(C5_upstream_resolution (fun _ => false) "/cwd" "/work"
      [ArtifactDefinition.mk "T1" ["a.txt"] false]).1 (by decide),
    (C5_upstream_resolution (fun _ => false) "/cwd" "/work"
      [ArtifactDefinition.mk "T1" ["a.txt"] true]).2 (by decide)⟩

/-! ## Lemmas for the download path -/

theorem validateUrls_error (valid_ids : List String) (pdir : String)
    (urls : List ArtifactUrl) (h : ∃ u ∈ urls, u.taskId ∉ valid_ids) :
    ∃ v, v ∈ urls ∧ v.taskId ∉ valid_ids ∧
      validateUrls valid_ids pdir urls =
        Except.error (DownloadArtifactsError.invalidUrl v) := by
  induction urls with
  | nil =>
    obtain ⟨u, hu, -⟩ := h
    simp at hu
  | cons u rest ih =>
    by_cases hu : u.taskId ∈ valid_ids
    · have hrest : ∃ v ∈ rest, v.taskId ∉ valid_ids := by
        obtain ⟨v, hv, hnv⟩ := h
        rcases List.mem_cons.mp hv with rfl | hm
        · exact absurd hu hnv
        · exact ⟨v, hm, hnv⟩
      obtain ⟨v, hv, hnv, heq⟩ := ih hrest
      refine ⟨v, List.mem_cons_of_mem _ hv, hnv, ?_⟩
      rw [validateUrls]
      unfold validate_artifact_url
      rw [if_pos hu, heq]
    · refine ⟨u, by simp, hu, ?_⟩
      rw [validateUrls]
      unfold validate_artifact_url
      rw [if_neg hu]

theorem validateUrls_ok (valid_ids : List String) (pdir : String)
    (urls : List ArtifactUrl) (h : ∀ u ∈ urls, u.taskId ∈ valid_ids) :
    validateUrls valid_ids pdir urls =
      Except.ok (urls.map (fun u => pyJoin pdir u.relPath)) := by
  induction urls with
  | nil => rfl
  | cons u rest ih =>
    rw [validateUrls]
    unfold validate_artifact_url
    rw [if_pos (h u (by simp)), ih (fun v hv => h v (List.mem_cons_of_mem _ hv))]
    simp

/-- C3: `download_artifacts` validates every URL against the allow-list of task
ids (defaulting to the task's dependencies plus the decision task id) before
any download runs: when some URL references a task id outside the allow-list,
a validation error is raised and the set of URLs for which a download was
performed is empty. -/
theorem C3_urls_validated_before_download
    (download_result : ArtifactUrl → Except DownloadArtifactsError Unit)
    (work_dir : String) (dependencies : List String) (decision_task_id : String)
    (valid_artifact_task_ids : Option (List String)) (parent_dir : Option String)
    (file_urls : List ArtifactUrl) (u : ArtifactUrl) (hu : u ∈ file_urls)
    (hbad : u.taskId ∉ valid_artifact_task_ids.getD (dependencies ++ [decision_task_id])) :
    (∃ v, v ∈ file_urls ∧
      v.taskId ∉ valid_artifact_task_ids.getD (dependencies ++ [decision_task_id]) ∧
      (download_artifacts download_result work_dir dependencies decision_task_id
        valid_artifact_task_ids parent_dir file_urls).1 =
        Except.error (DownloadArtifactsError.invalidUrl v)) ∧
    (download_artifacts download_result work_dir dependencies decision_task_id
      valid_artifact_task_ids parent_dir file_urls).2 = [] := by
  obtain ⟨v, hv, hnv, heq⟩ := validateUrls_error
    (valid_artifact_task_ids.getD (dependencies ++ [decision_task_id]))
    (parent_dir.getD work_dir) file_urls ⟨u, hu, hbad⟩
  refine ⟨⟨v, hv, hnv, ?_⟩, ?_⟩
  · simp only [download_artifacts]
    rw [heq]
  · simp only [download_artifacts]
    rw [heq]

/-- Witness for C3: allow-list `{A, B}` (dependency `A`, decision task `B`)
and a URL referencing task `C`. -/
theorem C3_urls_validated_before_download_witness :
    (∃ v, v ∈ [ArtifactUrl.mk "C" "p"] ∧
      v.taskId ∉ (Option.none).getD (["A"] ++ ["B"]) ∧
      (download_artifacts (fun _ => Except.ok ()) "/work" ["A"] "B" none none
        [ArtifactUrl.mk "C" "p"]).1 =
        Except.error (DownloadArtifactsError.invalidUrl v)) ∧
    (download_artifacts (fun _ => Except.ok ()) "/work" ["A"] "B" none none
      [ArtifactUrl.mk "C" "p"]).2 = [] :=
  C3_urls_validated_before_download (fun _ => Except.ok ()) "/work" ["A"] "B" none none
    [ArtifactUrl.mk "C" "p"] (ArtifactUrl.mk "C" "p") (by simp) (by decide)

/-- C8: `download_artifacts` succeeds only when every individual download
succeeds, in which case it returns the absolute local paths (destination
directory joined with each validated relative path) in the same order as the
input URLs; an unrecoverable failure of any single download makes the whole
call raise. -/
theorem C8_download_batch_order
    (download_result : ArtifactUrl → Except DownloadArtifactsError Unit)
    (work_dir : String) (dependencies : List String) (decision_task_id : String)
    (valid_artifact_task_ids : Option (List String)) (parent_dir : Option String)
    (file_urls : List ArtifactUrl) :
    ((∀ u ∈ file_urls,
        u.taskId ∈ valid_artifact_task_ids.getD (dependencies ++ [decision_task_id])) →
      (∀ u ∈ file_urls, download_result u = Except.ok ()) →
      (download_artifacts download_result work_dir dependencies decision_task_id
        valid_artifact_task_ids parent_dir file_urls).1 =
        Except.ok (file_urls.map (fun u => pyJoin (parent_dir.getD work_dir) u.relPath))) ∧
    (∀ u ∈ file_urls, download_result u ≠ Except.ok () →
      ∃ e, (download_artifacts download_result work_dir dependencies decision_task_id
        valid_artifact_task_ids parent_dir file_urls).1 = Except.error e) := by
  constructor
  · intro hval hdl
    simp only [download_artifacts]
    rw [validateUrls_ok (valid_artifact_task_ids.getD (dependencies ++ [decision_task_id]))
      (parent_dir.getD work_dir) file_urls hval]
    rw [List.findSome?_map]
    rw [List.findSome?_eq_none_iff.mpr (fun u hu => by
      simp [Function.comp_def, hdl u hu, errorOf])]
  · intro u hu hne
    simp only [download_artifacts]
    cases hval : validateUrls (valid_artifact_task_ids.getD (dependencies ++ [decision_task_id]))
        (parent_dir.getD work_dir) file_urls with
    | error e => exact ⟨e, rfl⟩
    | ok files =>
      cases hdlu : download_result u with
      | ok a => exact absurd (by rw [hdlu]) hne
      | error e =>
        cases hfind : (file_urls.map download_result).findSome? errorOf with
        | some e' => exact ⟨e', rfl⟩
        | none =>
          rw [List.findSome?_map] at hfind
          have := List.findSome?_eq_none_iff.mp hfind u hu
          simp [Function.comp_def, hdlu, errorOf] at this

/-- Witness for C8: a batch of two valid URLs downloads in order; a batch
with one failing download raises. -/
theorem C8_download_batch_order_witness :
    (download_artifacts (fun _ => Except.ok ()) "/work" ["A"] "B" none none
      [ArtifactUrl.mk "A" "p1", ArtifactUrl.mk "B" "p2"]).1 =
      Except.ok ([ArtifactUrl.mk "A" "p1", ArtifactUrl.mk "B" "p2"].map
        (fun u => pyJoin ((Option.none).getD "/work") u.relPath)) ∧
    ∃ e, (download_artifacts
        (fun u => if u.taskId = "A" then Except.error (DownloadArtifactsError.downloadFailed u)
          else Except.ok ())
        "/work" ["A"] "B" none none [ArtifactUrl.mk "A" "p1"]).1 = Except.error e :=
  ⟨(C8_download_batch_order (fun _ => Except.ok ()) "/work" ["A"] "B" none none
      [ArtifactUrl.mk "A" "p1", ArtifactUrl.mk "B" "p2"]).1 (by decide)
      (fun u _ => rfl),
    (C8_download_batch_order
      (fun u => if u.taskId = "A" then Except.error (DownloadArtifactsError.downloadFailed u)
        else Except.ok ())
      "/work" ["A"] "B" none none [ArtifactUrl.mk "A" "p1"]).2
      (ArtifactUrl.mk "A" "p1") (by simp) (by simp)⟩

/-! ## Lemmas for the upload batch and the retry primitive -/

theorem filterMap_ok_map (upload_result : String → Except UploadError Unit)
    (files : List String) (h : ∀ f ∈ files, upload_result f = Except.ok ()) :
    (files.map upload_result).filterMap okOf = files.map (fun _ => ()) := by
  induction files with
  | nil => rfl
  | cons f rest ih =>
    simp only [List.map_cons, List.filterMap_cons, h f (by simp), okOf]
    rw [ih (fun g hg => h g (List.mem_cons_of_mem _ hg))]

theorem raise_map_eq (upload_result : String → Except UploadError Unit)
    (files : List String) :
    raise_future_exceptions (files.map upload_result) =
      (match files.findSome? (fun f => errorOf (upload_result f)) with
        | some e => Except.error e
        | none => Except.ok (files.map (fun _ => ()))) := by
  unfold raise_future_exceptions
  rw [List.findSome?_map]
  simp only [Function.comp_def]
  cases hfind : files.findSome? (fun f => errorOf (upload_result f)) with
  | some e => rfl
  | none =>
    have hok : ∀ f ∈ files, upload_result f = Except.ok () := by
      intro f hf
      have := List.findSome?_eq_none_iff.mp hfind f hf
      cases hu : upload_result f with
      | ok a => rfl
      | error e => rw [hu] at this; simp [errorOf] at this
    rw [filterMap_ok_map upload_result files hok]

/-- C6: `upload_artifacts` over `N` files starts `N` independent upload
operations and awaits them as one batch: the call raises the first observed
exception when any upload failed after its retries, succeeds when all did,
and files whose upload succeeded stay uploaded (no rollback) even when a
sibling failed. -/
theorem C6_upload_batch (upload_result : String → Except UploadError Unit)
    (files : List String) :
    (files.map upload_result).length = files.length ∧
    (upload_artifacts upload_result files).1 =
      (match files.findSome? (fun f => errorOf (upload_result f)) with
        | some e => Except.error e
        | none => Except.ok (files.map (fun _ => ()))) ∧
    (∀ f ∈ files, upload_result f = Except.ok () →
      f ∈ (upload_artifacts upload_result files).2) := by
  refine ⟨List.length_map _ _, raise_map_eq upload_result files, ?_⟩
  intro f hf hok
  apply List.mem_filter.mpr
  exact ⟨hf, by rw [hok]; rfl⟩

/-- Witness for C6: with one failing and one succeeding upload, the batch
raises while the succeeding file stays uploaded. -/
theorem C6_upload_batch_witness :
    "good" ∈ (upload_artifacts
      (fun f => if f = "good" then Except.ok () else Except.error UploadError.fatal)
      ["good", "bad"]).2 :=
  (C6_upload_batch
    (fun f => if f = "good" then Except.ok () else Except.error UploadError.fatal)
    ["good", "bad"]).2.2 "good" (by simp) (by simp)

theorem retry_async_exhaust {E A : Type} (isR : E → Bool) (op : Nat → Except E A)
    (herr : ∀ i, ∃ e, op i = Except.error e ∧ isR e = true) :
    ∀ budget attempt, 1 ≤ budget →
      ∃ e, retry_async isR op attempt budget = (Except.error e, attempt + budget) ∧
        isR e = true
  | 0, attempt, h => absurd h (by simp)
  | 1, attempt, _ => by
    obtain ⟨e, he, hr⟩ := herr attempt
    exact ⟨e, by rw [retry_async, he], hr⟩
  | budget + 2, attempt, _ => by
    obtain ⟨e, he, hr⟩ := herr attempt
    obtain ⟨e', he', hr'⟩ := retry_async_exhaust isR op herr (budget + 1) (attempt + 1)
      (by omega)
    refine ⟨e', ?_, hr'⟩
    rw [retry_async, he]
    show (if isR e = true then retry_async isR op (attempt + 1) (budget + 1)
      else (Except.error e, attempt + 1)) = _
    rw [if_pos hr, he']
    simp only [Prod.mk.injEq]
    exact ⟨trivial, by omega⟩

/-- C9: `create_artifact` treats a PUT status other than 200 or 204 as a
`ScriptWorkerRetryException` and a 200/204 status as success; the retry
wrapper's transient set contains `ScriptWorkerRetryException` and
`aiohttp.ClientError`, and when every attempt sees a bad status,
`retry_create_artifact` exhausts exactly the attempt budget and raises the
(retryable) failure, which then becomes fatal to the batch. -/
theorem C9_create_artifact_retry (s : Nat) (responses : Nat → Nat) (attempts : Nat) :
    ((s = 200 ∨ s = 204) → create_artifact s = Except.ok ()) ∧
    (¬(s = 200 ∨ s = 204) →
      create_artifact s =
        Except.error (UploadError.retryException ("Bad status " ++ toString s))) ∧
    is_retryable_upload UploadError.clientError = true ∧
    (∀ m, is_retryable_upload (UploadError.retryException m) = true) ∧
    (1 ≤ attempts → (∀ i, ¬(responses i = 200 ∨ responses i = 204)) →
      ∃ e, retry_create_artifact attempts responses = (Except.error e, attempts) ∧
        is_retryable_upload e = true) := by
  refine ⟨?_, ?_, rfl, fun m => rfl, ?_⟩
  · intro h
    unfold create_artifact
    rw [if_pos h]
  · intro h
    unfold create_artifact
    rw [if_neg h]
  · intro hatt hbad
    have herr : ∀ i, ∃ e, create_artifact (responses i) = Except.error e ∧
        is_retryable_upload e = true := by
      intro i
      refine ⟨UploadError.retryException ("Bad status " ++ toString (responses i)), ?_, rfl⟩
      unfold create_artifact
      rw [if_neg (hbad i)]
    obtain ⟨e, he, hr⟩ := retry_async_exhaust is_retryable_upload
      (fun i => create_artifact (responses i)) herr attempts 0 hatt
    exact ⟨e, by unfold retry_create_artifact; rw [he]; simp, hr⟩

/-- Witness for C9: status 500 raises the retry exception, status 200
succeeds, and a run of bad statuses exhausts a budget of 2 attempts. -/
theorem C9_create_artifact_retry_witness :
    create_artifact 200 = Except.ok () ∧
    create_artifact 500 =
      Except.error (UploadError.retryException ("Bad status " ++ toString 500)) ∧
    ∃ e, retry_create_artifact 2 (fun _ => 500) = (Except.error e, 2) ∧
      is_retryable_upload e = true :=
  ⟨(C9_create_artifact_retry 200 (fun _ => 500) 2).1 (Or.inl rfl),
    (C9_create_artifact_retry 500 (fun _ => 500) 2).2.1 (by decide),
    (C9_create_artifact_retry 500 (fun _ => 500) 2).2.2.2.2 (by decide) (fun i => by decide)⟩

/-! ## The shutdown accounting of the lifecycle controller -/

/-- C4: when the worker is cancelled while a claimed task is executing
(including while chain-of-trust verification is in flight), the cycle still
performs exactly one completion report, with status worker-shutdown, and
exactly one artifact upload call covering exactly the chain-of-trust log
artifacts — whatever the other phase outcomes are. -/
theorem C4_shutdown_accounting (verify_cot : Bool) (task_max_timeout_status : Status)
    (run : RunTaskOutcome) (verify : CotVerifyOutcome)
    (artifact_files : List String) (upload_ok : Bool)
    (h : run = RunTaskOutcome.shutdownStopped ∨
      (verify_cot = true ∧ verify = CotVerifyOutcome.cancelledByShutdown)) :
    (do_run_task verify_cot task_max_timeout_status run verify artifact_files upload_ok).1 =
      Status.workerShutdown ∧
    ((do_run_task verify_cot task_max_timeout_status run verify artifact_files
      upload_ok).2.filter isCompleteEvent) =
      [WorkerEvent.completeCall Status.workerShutdown] ∧
    ((do_run_task verify_cot task_max_timeout_status run verify artifact_files
      upload_ok).2.filter isUploadEvent) =
      [WorkerEvent.uploadCall cot_log_artifacts] := by
  rcases h with rfl | ⟨hcot, hverify⟩
  · refine ⟨rfl, ?_, ?_⟩ <;>
      simp [do_run_task, isCompleteEvent, isUploadEvent, List.filter]
  · subst hcot
    subst hverify
    cases run with
    | finished code =>
      by_cases hc : code = 0 <;>
        simp [do_run_task, exit_code_status, hc, isCompleteEvent, isUploadEvent, List.filter]
    | timedOut =>
      refine ⟨rfl, ?_, ?_⟩ <;>
        simp [do_run_task, isCompleteEvent, isUploadEvent, List.filter]
    | shutdownStopped =>
      refine ⟨rfl, ?_, ?_⟩ <;>
        simp [do_run_task, isCompleteEvent, isUploadEvent, List.filter]

/-- Witness for C4: a shutdown interrupting chain-of-trust verification after
a normal task exit, with a failing upload, still yields exactly one
worker-shutdown completion and one upload of the chain-of-trust logs. -/
theorem C4_shutdown_accounting_witness :
    (do_run_task true Status.intermittentTask (RunTaskOutcome.finished 0)
      CotVerifyOutcome.cancelledByShutdown ["public/out.zip"] false).1 =
      Status.workerShutdown ∧
    ((do_run_task true Status.intermittentTask (RunTaskOutcome.finished 0)
      CotVerifyOutcome.cancelledByShutdown ["public/out.zip"] false).2.filter
      isCompleteEvent) = [WorkerEvent.completeCall Status.workerShutdown] ∧
    ((do_run_task true Status.intermittentTask (RunTaskOutcome.finished 0)
      CotVerifyOutcome.cancelledByShutdown ["public/out.zip"] false).2.filter
      isUploadEvent) = [WorkerEvent.uploadCall cot_log_artifacts] :=
  C4_shutdown_accounting true Status.intermittentTask (RunTaskOutcome.finished 0)
    CotVerifyOutcome.cancelledByShutdown ["public/out.zip"] false
    (Or.inr ⟨rfl, rfl⟩)

end Scriptworker
